import Mathlib

/-!
Verification of the metrics aggregator `getApiMetrics` (and its helper
`getTotalTokensFromMessage`) from this repository against its
natural-language specification.

The aggregator is a TypeScript function folding a list of `ClineMessage`
records into an `ApiMetrics` summary.  We embed it shallowly:

* JSON values produced by `JSON.parse` are modelled by the inductive `JVal`
  (JavaScript numbers are modelled by `ℚ`; JSON numbers are always finite,
  so the only infidelity is float rounding, which no claim depends on).
* A message's optional `text` field is modelled by its parse outcome
  (`JParse`): `malformed` when `JSON.parse` would throw, `parsed v`
  otherwise.  The empty string is represented by a missing text field,
  since `!message.text` and `message.text && …` treat `""` exactly like
  `undefined` everywhere in the source.
* JavaScript dynamic operations used by the source (`||`, `+`, `> 0`,
  truthiness, property access, string coercion) are modelled below.
  Number-to-string rendering (`qToStr`) is exact for integers and
  approximate otherwise, and string-to-number parsing (`strToNum`) omits
  exponent/hex/`Infinity` forms: both are float-formatting corners that no
  claim or witness exercises.
-/

/-- A JSON value as returned by `JSON.parse`.  In an object, field lists
have pairwise-distinct keys (for duplicate keys `JSON.parse` keeps the last
one while parsing), so first-match lookup is exact. -/
inductive JVal where
  | jnull
  | jbool (b : Bool)
  | jnum (q : ℚ)
  | jstr (s : String)
  | jarr (xs : List JVal)
  | jobj (fs : List (String × JVal))

/-- The numeric payload of a `JVal`, when it is a number (used to state
concrete facts about values without a decidable equality on `JVal`). -/
def jnumOf : JVal → Option ℚ
  | .jnum q => some q
  | _ => none

/-- JavaScript property access `v[k]` for the field names the source
destructures: `none` is `undefined`.  Primitives and arrays have no own
(or inherited) property with any of the destructured names; `null` is
handled separately because destructuring it throws. -/
def getField (v : JVal) (k : String) : Option JVal :=
  match v with
  | .jobj fs => fs.lookup k
  | _ => none

/-- Destructuring `const {…} = v` succeeds for every JavaScript value
except `null` (and `undefined`, which `JSON.parse` never returns). -/
def destructOk : JVal → Bool
  | .jnull => false
  | _ => true

/-- JavaScript falsiness of a `JSON.parse` result (`NaN` cannot occur). -/
def falsy : JVal → Bool
  | .jnull => true
  | .jbool b => !b
  | .jnum q => q = 0
  | .jstr s => s = ""
  | _ => false

/-- Decimal digits to a natural number. -/
def digitsToNat (cs : List Char) : ℕ :=
  cs.foldl (fun n c => 10 * n + (c.toNat - 48)) 0

/-- JavaScript `ToNumber` on a string; `none` is `NaN`.  Handles the
whitespace-trimmed forms `""` (zero) and `[+-]?digits[.digits]`;
exponent, hex and `Infinity` forms are omitted (unused by any claim). -/
def strToNum (s : String) : Option ℚ :=
  let cs := s.trim.toList
  if cs.isEmpty then some 0 else
  let signed : ℚ × List Char :=
    match cs with
    | '-' :: rest => (-1, rest)
    | '+' :: rest => (1, rest)
    | _ => (1, cs)
  let body := signed.2
  let ip := body.takeWhile (fun c => c ≠ '.')
  let rest := body.dropWhile (fun c => c ≠ '.')
  let ok := ip.all Char.isDigit &&
    (match rest with
     | [] => !ip.isEmpty
     | _ :: fp => (!ip.isEmpty || !fp.isEmpty) && fp.all Char.isDigit)
  if ok then
    let fp : List Char := match rest with | [] => [] | _ :: fp => fp
    some (signed.1 * ((digitsToNat ip : ℚ) + (digitsToNat fp : ℚ) / (10 : ℚ) ^ fp.length))
  else none

/-- Rendering of a JavaScript number: exact for integers, an approximation
of the float formatting otherwise (no claim or witness depends on it). -/
def qToStr (q : ℚ) : String :=
  if q.den = 1 then toString q.num else toString q.num ++ "/" ++ toString q.den

/-- JavaScript `ToString`.  Arrays render as their elements joined by `","`
with `null` rendering as the empty string; plain objects render as
`"[object Object]"`. -/
def jsToString : JVal → String
  | .jnull => "null"
  | .jbool b => if b then "true" else "false"
  | .jnum q => qToStr q
  | .jstr s => s
  | .jobj _ => "[object Object]"
  | .jarr xs =>
    String.intercalate "," (xs.attach.map (fun p =>
      match p with
      | ⟨.jnull, _⟩ => ""
      | ⟨v, _⟩ => jsToString v))
decreasing_by
  rename_i h
  have := List.sizeOf_lt_of_mem h
  simp only [JVal.jarr.sizeOf_spec]
  omega

/-- JavaScript `ToPrimitive` (no hint relevant here): `JSON.parse` results
have the default `toString`, so arrays and objects become strings. -/
def primOf : JVal → JVal
  | .jarr xs => .jstr (jsToString (.jarr xs))
  | .jobj fs => .jstr (jsToString (.jobj fs))
  | v => v

/-- JavaScript `ToNumber`; `none` is `NaN`. -/
def toNumber : JVal → Option ℚ
  | .jnull => some 0
  | .jbool b => some (if b then 1 else 0)
  | .jnum q => some q
  | .jstr s => strToNum s
  | .jarr xs => strToNum (jsToString (.jarr xs))
  | .jobj fs => strToNum (jsToString (.jobj fs))

/-- JavaScript `x || 0`: a missing (`undefined`) or falsy value becomes
the number `0`. -/
def jsOrZero (x : Option JVal) : JVal :=
  match x with
  | none => .jnum 0
  | some v => if falsy v then .jnum 0 else v

/-- JavaScript `+`: if either primitive-coerced operand is a string,
concatenate; otherwise add numerically.  After `primOf` the non-string
operands are `null`, booleans or numbers, whose `ToNumber` is never `NaN`,
so the `getD 0` default is never exercised. -/
def jsAdd (a b : JVal) : JVal :=
  match primOf a, primOf b with
  | .jstr s, pb => .jstr (s ++ jsToString pb)
  | pa, .jstr t => .jstr (jsToString pa ++ t)
  | pa, pb => .jnum ((toNumber pa).getD 0 + (toNumber pb).getD 0)

/-- JavaScript `v > 0`: the right operand is a number, so the comparison is
numeric; `NaN` compares false. -/
def jsGt0 (v : JVal) : Bool :=
  match toNumber (primOf v) with
  | some q => decide (0 < q)
  | none => false

/-!  ## The data model of the aggregator  -/

/-- The outcome of `JSON.parse` on a (non-empty) payload string:
`malformed` when parsing throws, `parsed v` otherwise. -/
inductive JParse where
  | malformed
  | parsed (v : JVal)

/-- A message record, restricted to the fields `getApiMetrics` reads:
`type`, `say`, `ts` and the optional `text` payload (represented by its
parse outcome; a missing field stands for `undefined` or `""`, which the
source treats identically). -/
structure ClineMessage where
  type : String
  say : Option String
  ts : Int
  text : Option JParse

/-- One entry of `performanceHistory`: the source pushes the destructured
`tokensIn`, `tokensOut`, `provider`, `modelId` unchanged, so they are
`undefined` (`none`) whenever the payload omitted them. -/
structure PerfEntry where
  ts : Int
  duration : ℚ
  tokensIn : Option JVal
  tokensOut : Option JVal
  provider : Option JVal
  modelId : Option JVal

/-- The `ApiMetrics` result record.  `Record<string, number>` maps are
modelled as association lists in key-insertion order. -/
structure ApiMetrics where
  totalTokensIn : ℚ
  totalTokensOut : ℚ
  totalCacheWrites : Option ℚ
  totalCacheReads : Option ℚ
  totalCost : ℚ
  contextTokens : JVal
  totalDuration : ℚ
  requestCount : ℕ
  averageDuration : ℚ
  requestsByProvider : List (String × ℚ)
  requestsByModel : List (String × ℚ)
  durationByProvider : List (String × ℚ)
  durationByModel : List (String × ℚ)
  performanceHistory : List PerfEntry

/-!  ## The embedding of `getApiMetrics`  -/

/-- `message.type === "say" && message.say === "api_req_started"`. -/
def isApiReqStarted (m : ClineMessage) : Bool :=
  m.type = "say" && m.say = some "api_req_started"

/-- The helper `getTotalTokensFromMessage`: `0` for a missing payload,
a caught parse error, or the `TypeError` thrown by destructuring `null`;
otherwise `(tokensIn || 0) + (tokensOut || 0) + (cacheWrites || 0) +
(cacheReads || 0)` with JavaScript semantics. -/
def getTotalTokensFromMessage (m : ClineMessage) : JVal :=
  match m.text with
  | none => .jnum 0
  | some .malformed => .jnum 0
  | some (.parsed v) =>
    if destructOk v then
      jsAdd (jsAdd (jsAdd (jsOrZero (getField v "tokensIn"))
                          (jsOrZero (getField v "tokensOut")))
                   (jsOrZero (getField v "cacheWrites")))
            (jsOrZero (getField v "cacheReads"))
    else .jnum 0

/-- The predicate of the reverse scan that locates `lastApiReq`. -/
def qualifies (m : ClineMessage) : Bool :=
  isApiReqStarted m && jsGt0 (getTotalTokensFromMessage m)

/-- Position of `[...messages].reverse().find(qualifies)` in the original
list, carrying the running index: the greatest qualifying index (the found
element is compared by object identity later, which position captures). -/
def lastQualIdxAux : ℕ → List ClineMessage → Option ℕ
  | _, [] => none
  | i, m :: rest =>
    match lastQualIdxAux (i + 1) rest with
    | some j => some j
    | none => if qualifies m then some i else none

def lastQualIdx (ms : List ClineMessage) : Option ℕ :=
  lastQualIdxAux 0 ms

/-- The last qualifying message itself (specification-side companion of
`lastQualIdx`, used to state what `contextTokens` ends up being). -/
def lastQualMsg : List ClineMessage → Option ClineMessage
  | [] => none
  | m :: rest =>
    match lastQualMsg rest with
    | some x => some x
    | none => if qualifies m then some m else none

/-- `typeof x === "number"` on a possibly-missing field. -/
def numOf (o : Option JVal) : Option ℚ :=
  match o with
  | some (.jnum q) => some q
  | _ => none

/-- `requestDuration`: the explicit `duration` field when it is a number,
else `endTime - startTime` when both are numbers, else `0`. -/
def reqDuration (v : JVal) : ℚ :=
  match numOf (getField v "duration") with
  | some d => d
  | none =>
    match numOf (getField v "startTime"), numOf (getField v "endTime") with
    | some s, some e => e - s
    | _, _ => 0

/-- `map[k] = (map[k] || 0) + d` on a `Record<string, number>`: an existing
key keeps its position, a new key is appended. -/
def bump (mp : List (String × ℚ)) (k : String) (d : ℚ) : List (String × ℚ) :=
  if mp.any (fun p => p.1 = k) then
    mp.map (fun p => if p.1 = k then (p.1, p.2 + d) else p)
  else mp ++ [(k, d)]

/-- The body of the `try` block after a successful destructuring of the
parsed payload `v`, at position `i`; `L` is the position of `lastApiReq`.
Each field of the result mirrors one source statement; the statements
touch pairwise-distinct fields, so the sequential mutations equal this
simultaneous record update. -/
def applyFields (L : Option ℕ) (i : ℕ) (acc : ApiMetrics) (m : ClineMessage)
    (v : JVal) : ApiMetrics :=
  let rd := reqDuration v
  let provider := getField v "provider"
  let modelId := getField v "modelId"
  { totalTokensIn :=
      match numOf (getField v "tokensIn") with
      | some q => acc.totalTokensIn + q
      | none => acc.totalTokensIn
    totalTokensOut :=
      match numOf (getField v "tokensOut") with
      | some q => acc.totalTokensOut + q
      | none => acc.totalTokensOut
    totalCacheWrites :=
      match numOf (getField v "cacheWrites") with
      | some q => some (acc.totalCacheWrites.getD 0 + q)
      | none => acc.totalCacheWrites
    totalCacheReads :=
      match numOf (getField v "cacheReads") with
      | some q => some (acc.totalCacheReads.getD 0 + q)
      | none => acc.totalCacheReads
    totalCost :=
      match numOf (getField v "cost") with
      | some q => acc.totalCost + q
      | none => acc.totalCost
    requestCount := acc.requestCount + 1
    totalDuration := if 0 < rd then acc.totalDuration + rd else acc.totalDuration
    performanceHistory :=
      if 0 < rd then
        acc.performanceHistory ++
          [⟨m.ts, rd, getField v "tokensIn", getField v "tokensOut", provider, modelId⟩]
      else acc.performanceHistory
    requestsByProvider :=
      if 0 < rd then
        match provider with
        | some p => if falsy p then acc.requestsByProvider
                    else bump acc.requestsByProvider (jsToString p) 1
        | none => acc.requestsByProvider
      else acc.requestsByProvider
    durationByProvider :=
      if 0 < rd then
        match provider with
        | some p => if falsy p then acc.durationByProvider
                    else bump acc.durationByProvider (jsToString p) rd
        | none => acc.durationByProvider
      else acc.durationByProvider
    requestsByModel :=
      if 0 < rd then
        match modelId with
        | some p => if falsy p then acc.requestsByModel
                    else bump acc.requestsByModel (jsToString p) 1
        | none => acc.requestsByModel
      else acc.requestsByModel
    durationByModel :=
      if 0 < rd then
        match modelId with
        | some p => if falsy p then acc.durationByModel
                    else bump acc.durationByModel (jsToString p) rd
        | none => acc.durationByModel
      else acc.durationByModel
    contextTokens :=
      if L = some i then getTotalTokensFromMessage m else acc.contextTokens
    averageDuration := acc.averageDuration }

/-- The `try` block: `JSON.parse` throws on a malformed payload, the
destructuring throws on `null`; both surface as `.error`. -/
def tryBlock (L : Option ℕ) (i : ℕ) (acc : ApiMetrics) (m : ClineMessage)
    (t : JParse) : Except Unit ApiMetrics :=
  match t with
  | .malformed => .error ()
  | .parsed v =>
    if destructOk v then .ok (applyFields L i acc m v) else .error ()

/-- One iteration of the `forEach`, with its `catch` clause: an exception
from the `try` block is logged and the accumulator is left unchanged, so
the step never propagates an error. -/
def stepCaught (L : Option ℕ) (i : ℕ) (acc : ApiMetrics) (m : ClineMessage) :
    Except Unit ApiMetrics :=
  if isApiReqStarted m then
    match m.text with
    | some t =>
      match tryBlock L i acc m t with
      | .ok r => .ok r
      | .error _ => .ok acc
    | none => .ok acc
  else .ok acc

/-- The same iteration as a pure step (the shape `stepCaught` always has,
proved below in `stepCaught_ok`). -/
def processMessage (L : Option ℕ) (i : ℕ) (acc : ApiMetrics) (m : ClineMessage) :
    ApiMetrics :=
  match stepCaught L i acc m with
  | .ok r => r
  | .error _ => acc

/-- The forward scan (`messages.forEach`) from index `i`. -/
def runFrom (L : Option ℕ) : ℕ → ApiMetrics → List ClineMessage → ApiMetrics
  | _, acc, [] => acc
  | i, acc, m :: rest => runFrom L (i + 1) (processMessage L i acc m) rest

/-- The forward scan with explicit exception propagation: an uncaught
exception in any iteration would abort it with `.error`. -/
def runFromE (L : Option ℕ) : ℕ → ApiMetrics → List ClineMessage →
    Except Unit ApiMetrics
  | _, acc, [] => .ok acc
  | i, acc, m :: rest =>
    match stepCaught L i acc m with
    | .ok acc2 => runFromE L (i + 1) acc2 rest
    | .error e => .error e

/-- The initial `result` record. -/
def initMetrics : ApiMetrics :=
  ⟨0, 0, none, none, 0, .jnum 0, 0, 0, 0, [], [], [], [], []⟩

/-- The final `averageDuration` computation. -/
def finishAvg (r : ApiMetrics) : ApiMetrics :=
  if 0 < r.requestCount ∧ 0 < r.totalDuration then
    { r with averageDuration := r.totalDuration / (r.requestCount : ℚ) }
  else r

/-- `getApiMetrics`: locate `lastApiReq` by a reverse scan, fold the
messages forward, then fill in `averageDuration`. -/
def getApiMetrics (ms : List ClineMessage) : ApiMetrics :=
  finishAvg (runFrom (lastQualIdx ms) 0 initMetrics ms)

/-- `getApiMetrics` with explicit exception propagation: `.error` would be
an exception escaping to the caller. -/
def getApiMetricsE (ms : List ClineMessage) : Except Unit ApiMetrics :=
  match runFromE (lastQualIdx ms) 0 initMetrics ms with
  | .ok r => .ok (finishAvg r)
  | .error e => .error e

/-!  ## Specification-side descriptions of the aggregation  -/

/-- A message the `try` block fully processes (the increment of
`requestCount` is reached): tagged `api_req_started`, with a payload that
parses to a non-`null` value. -/
def countedB (m : ClineMessage) : Bool :=
  isApiReqStarted m &&
    (match m.text with
     | some (.parsed v) => destructOk v
     | _ => false)

/-- A payload field of a message, `none` when the payload is missing,
malformed, or lacks the field. -/
def payloadField (m : ClineMessage) (k : String) : Option JVal :=
  match m.text with
  | some (.parsed v) => getField v k
  | _ => none

/-- The derived request duration of a message: explicit `duration` field,
else `endTime - startTime` when both are numeric, else `0`. -/
def derivedDuration (m : ClineMessage) : ℚ :=
  match m.text with
  | some (.parsed v) => reqDuration v
  | _ => 0

/-- An API-request-start event with strictly positive derived duration
(the wording of the specification). -/
def posB (m : ClineMessage) : Bool :=
  isApiReqStarted m && decide (0 < derivedDuration m)

/-- The same predicate through the `try` block's reach: processed events
with positive duration. -/
def posCounted (m : ClineMessage) : Bool :=
  countedB m && decide (0 < derivedDuration m)

/-- The numeric contribution of a message's payload field `k` to a running
total. -/
def contribNum (m : ClineMessage) (k : String) : ℚ :=
  if countedB m then (numOf (payloadField m k)).getD 0 else 0

/-- The history entry the source pushes for a message. -/
def entryOf (m : ClineMessage) : PerfEntry :=
  ⟨m.ts, derivedDuration m, payloadField m "tokensIn", payloadField m "tokensOut",
   payloadField m "provider", payloadField m "modelId"⟩

/-- The `(key, weight)` contribution of a message to one of the four
grouping maps: present only for processed events with positive duration
and a truthy key field. -/
def mapPair (k : String) (w : ClineMessage → ℚ) (m : ClineMessage) :
    Option (String × ℚ) :=
  if posCounted m then
    match payloadField m k with
    | some p => if falsy p then none else some (jsToString p, w m)
    | none => none
  else none

/-- A grouping map built from a list of `(key, weight)` contributions. -/
def buildMap (l : List (String × ℚ)) : List (String × ℚ) :=
  l.foldl (fun mp p => bump mp p.1 p.2) []

/-- The numeric cache-field occurrences across a message list (for the
optional cache accumulators). -/
def cacheList (k : String) (ms : List ClineMessage) : List ℚ :=
  ms.filterMap (fun m => if countedB m then numOf (payloadField m k) else none)

/-!  ## Basic shape lemmas  -/

theorem reqDuration_jnull : reqDuration .jnull = 0 := by
  simp [reqDuration, getField, numOf]

theorem posB_eq_posCounted (m : ClineMessage) : posB m = posCounted m := by
  unfold posB posCounted countedB derivedDuration
  rcases m with ⟨ty, sy, ts, tx⟩
  match tx with
  | none => simp
  | some .malformed => simp
  | some (.parsed .jnull) => simp [destructOk, reqDuration_jnull]
  | some (.parsed (.jbool b)) => simp [destructOk, Bool.and_assoc]
  | some (.parsed (.jnum q)) => simp [destructOk, Bool.and_assoc]
  | some (.parsed (.jstr s)) => simp [destructOk, Bool.and_assoc]
  | some (.parsed (.jarr xs)) => simp [destructOk, Bool.and_assoc]
  | some (.parsed (.jobj fs)) => simp [destructOk, Bool.and_assoc]

theorem stepCaught_ok (L : Option ℕ) (i : ℕ) (acc : ApiMetrics)
    (m : ClineMessage) : stepCaught L i acc m = .ok (processMessage L i acc m) := by
  unfold processMessage stepCaught tryBlock
  rcases m with ⟨ty, sy, ts, tx⟩
  by_cases hA : isApiReqStarted ⟨ty, sy, ts, tx⟩ <;>
    rcases tx with _ | t <;> try simp [hA]
  rcases t with _ | v <;> simp [hA]
  cases hv : destructOk v <;> simp

/-- Unfolding of one `forEach` iteration into its effective cases. -/
theorem processMessage_eq (L : Option ℕ) (i : ℕ) (acc : ApiMetrics)
    (m : ClineMessage) :
    processMessage L i acc m =
      match m.text with
      | some (.parsed v) =>
        if isApiReqStarted m && destructOk v then applyFields L i acc m v else acc
      | _ => acc := by
  unfold processMessage stepCaught tryBlock
  rcases m with ⟨ty, sy, ts, tx⟩
  by_cases hA : isApiReqStarted ⟨ty, sy, ts, tx⟩ <;>
    rcases tx with _ | t <;> try simp [hA]
  · rcases t with _ | v <;> simp [hA]
    cases hv : destructOk v <;> simp
  · rcases t with _ | v <;> simp [hA]

theorem runFromE_eq (L : Option ℕ) (ms : List ClineMessage) :
    ∀ (i : ℕ) (acc : ApiMetrics),
      runFromE L i acc ms = .ok (runFrom L i acc ms) := by
  induction ms with
  | nil => intro i acc; rfl
  | cons m rest ih =>
    intro i acc
    simp only [runFromE, runFrom, stepCaught_ok]
    exact ih (i + 1) (processMessage L i acc m)

/-- A component of the fold that is updated independently of the position
equals a plain `foldl` of its per-message update. -/
theorem runFrom_comp {α : Type} (g : ApiMetrics → α) (u : α → ClineMessage → α)
    (hstep : ∀ L i acc m, g (processMessage L i acc m) = u (g acc) m)
    (ms : List ClineMessage) (L : Option ℕ) :
    ∀ (i : ℕ) (acc : ApiMetrics),
      g (runFrom L i acc ms) = ms.foldl u (g acc) := by
  induction ms with
  | nil => intro i acc; rfl
  | cons m rest ih =>
    intro i acc
    simp only [runFrom, List.foldl_cons, ← hstep L i acc m]
    exact ih (i + 1) (processMessage L i acc m)

/-!  ## Generic fold lemmas  -/

theorem foldl_add_map {β : Type} (f : β → ℚ) (ms : List β) :
    ∀ x : ℚ, ms.foldl (fun a m => a + f m) x = x + (ms.map f).sum := by
  induction ms with
  | nil => intro x; simp
  | cons m rest ih =>
    intro x
    simp only [List.foldl_cons, List.map_cons, List.sum_cons, ih (x + f m)]
    ring

theorem foldl_count {β : Type} (p : β → Bool) (ms : List β) :
    ∀ x : ℕ, ms.foldl (fun a m => a + (if p m then 1 else 0)) x
      = x + (ms.filter p).length := by
  induction ms with
  | nil => intro x; simp
  | cons m rest ih =>
    intro x
    by_cases h : p m
    · simp [List.filter_cons, h, ih]
      omega
    · simp [List.filter_cons, h, ih]

theorem foldl_if_append {β γ : Type} (p : β → Bool) (f : β → γ) (ms : List β) :
    ∀ x : List γ, ms.foldl (fun a m => if p m then a ++ [f m] else a) x
      = x ++ (ms.filter p).map f := by
  induction ms with
  | nil => intro x; simp
  | cons m rest ih =>
    intro x
    by_cases h : p m <;> simp [List.filter_cons, h, ih]

/-- A fold step that applies `g` only when `f` selects a contribution. -/
def stepOpt {α β γ : Type} (f : β → Option γ) (g : α → γ → α) (a : α) (m : β) : α :=
  match f m with
  | some c => g a c
  | none => a

theorem foldl_filterMap {α β γ : Type} (f : β → Option γ) (g : α → γ → α)
    (ms : List β) :
    ∀ x : α, ms.foldl (stepOpt f g) x = (ms.filterMap f).foldl g x := by
  induction ms with
  | nil => intro x; simp
  | cons m rest ih =>
    intro x
    simp only [List.foldl_cons, List.filterMap_cons, stepOpt]
    cases h : f m <;> simp [h, ih]

theorem foldl_cacheAcc (l : List ℚ) :
    ∀ x : Option ℚ, l.foldl (fun x q => some (x.getD 0 + q)) x
      = if l.isEmpty then x else some (x.getD 0 + l.sum) := by
  induction l with
  | nil => intro x; simp
  | cons q t ih =>
    intro x
    simp only [List.foldl_cons, ih (some (x.getD 0 + q)), List.isEmpty_cons,
      List.sum_cons]
    cases t with
    | nil => simp
    | cons b t2 => simp; ring

/-!  ## `finishAvg` touches only `averageDuration`  -/

theorem finishAvg_requestCount (r : ApiMetrics) :
    (finishAvg r).requestCount = r.requestCount := by
  unfold finishAvg; split <;> rfl

theorem finishAvg_totalDuration (r : ApiMetrics) :
    (finishAvg r).totalDuration = r.totalDuration := by
  unfold finishAvg; split <;> rfl

theorem finishAvg_contextTokens (r : ApiMetrics) :
    (finishAvg r).contextTokens = r.contextTokens := by
  unfold finishAvg; split <;> rfl

theorem finishAvg_totalTokensIn (r : ApiMetrics) :
    (finishAvg r).totalTokensIn = r.totalTokensIn := by
  unfold finishAvg; split <;> rfl

theorem finishAvg_totalTokensOut (r : ApiMetrics) :
    (finishAvg r).totalTokensOut = r.totalTokensOut := by
  unfold finishAvg; split <;> rfl

theorem finishAvg_totalCacheWrites (r : ApiMetrics) :
    (finishAvg r).totalCacheWrites = r.totalCacheWrites := by
  unfold finishAvg; split <;> rfl

theorem finishAvg_totalCacheReads (r : ApiMetrics) :
    (finishAvg r).totalCacheReads = r.totalCacheReads := by
  unfold finishAvg; split <;> rfl

theorem finishAvg_totalCost (r : ApiMetrics) :
    (finishAvg r).totalCost = r.totalCost := by
  unfold finishAvg; split <;> rfl

theorem finishAvg_requestsByProvider (r : ApiMetrics) :
    (finishAvg r).requestsByProvider = r.requestsByProvider := by
  unfold finishAvg; split <;> rfl

theorem finishAvg_requestsByModel (r : ApiMetrics) :
    (finishAvg r).requestsByModel = r.requestsByModel := by
  unfold finishAvg; split <;> rfl

theorem finishAvg_durationByProvider (r : ApiMetrics) :
    (finishAvg r).durationByProvider = r.durationByProvider := by
  unfold finishAvg; split <;> rfl

theorem finishAvg_durationByModel (r : ApiMetrics) :
    (finishAvg r).durationByModel = r.durationByModel := by
  unfold finishAvg; split <;> rfl

theorem finishAvg_performanceHistory (r : ApiMetrics) :
    (finishAvg r).performanceHistory = r.performanceHistory := by
  unfold finishAvg; split <;> rfl

/-!  ## Per-component step lemmas for one `forEach` iteration  -/

/-- The numeric cache-field occurrence of a message, when processed. -/
def cacheField (k : String) (m : ClineMessage) : Option ℚ :=
  if countedB m then numOf (payloadField m k) else none

theorem processMessage_totalTokensIn (L : Option ℕ) (i : ℕ) (acc : ApiMetrics)
    (m : ClineMessage) :
    (processMessage L i acc m).totalTokensIn
      = acc.totalTokensIn + contribNum m "tokensIn" := by
  rw [processMessage_eq]
  rcases m with ⟨ty, sy, ts, tx⟩
  rcases tx with _ | t
  · simp [contribNum, countedB]
  rcases t with _ | v
  · simp [contribNum, countedB]
  by_cases hA : isApiReqStarted ⟨ty, sy, ts, some (.parsed v)⟩
  · cases hd : destructOk v
    · simp [hA, hd, contribNum, countedB]
    · simp only [hA, hd, Bool.and_self, if_true, contribNum, countedB,
        payloadField, applyFields]
      cases hn : numOf (getField v "tokensIn") <;> simp [hn]
  · simp at hA
    simp [hA, contribNum, countedB]

theorem processMessage_totalTokensOut (L : Option ℕ) (i : ℕ) (acc : ApiMetrics)
    (m : ClineMessage) :
    (processMessage L i acc m).totalTokensOut
      = acc.totalTokensOut + contribNum m "tokensOut" := by
  rw [processMessage_eq]
  rcases m with ⟨ty, sy, ts, tx⟩
  rcases tx with _ | t
  · simp [contribNum, countedB]
  rcases t with _ | v
  · simp [contribNum, countedB]
  by_cases hA : isApiReqStarted ⟨ty, sy, ts, some (.parsed v)⟩
  · cases hd : destructOk v
    · simp [hA, hd, contribNum, countedB]
    · simp only [hA, hd, Bool.and_self, if_true, contribNum, countedB,
        payloadField, applyFields]
      cases hn : numOf (getField v "tokensOut") <;> simp [hn]
  · simp at hA
    simp [hA, contribNum, countedB]

theorem processMessage_totalCost (L : Option ℕ) (i : ℕ) (acc : ApiMetrics)
    (m : ClineMessage) :
    (processMessage L i acc m).totalCost = acc.totalCost + contribNum m "cost" := by
  rw [processMessage_eq]
  rcases m with ⟨ty, sy, ts, tx⟩
  rcases tx with _ | t
  · simp [contribNum, countedB]
  rcases t with _ | v
  · simp [contribNum, countedB]
  by_cases hA : isApiReqStarted ⟨ty, sy, ts, some (.parsed v)⟩
  · cases hd : destructOk v
    · simp [hA, hd, contribNum, countedB]
    · simp only [hA, hd, Bool.and_self, if_true, contribNum, countedB,
        payloadField, applyFields]
      cases hn : numOf (getField v "cost") <;> simp [hn]
  · simp at hA
    simp [hA, contribNum, countedB]

theorem processMessage_requestCount (L : Option ℕ) (i : ℕ) (acc : ApiMetrics)
    (m : ClineMessage) :
    (processMessage L i acc m).requestCount
      = acc.requestCount + (if countedB m then 1 else 0) := by
  rw [processMessage_eq]
  rcases m with ⟨ty, sy, ts, tx⟩
  rcases tx with _ | t
  · simp [countedB]
  rcases t with _ | v
  · simp [countedB]
  by_cases hA : isApiReqStarted ⟨ty, sy, ts, some (.parsed v)⟩
  · cases hd : destructOk v
    · simp [hA, hd, countedB]
    · simp [hA, hd, countedB, applyFields]
  · simp at hA
    simp [hA, countedB]

theorem processMessage_totalCacheWrites (L : Option ℕ) (i : ℕ) (acc : ApiMetrics)
    (m : ClineMessage) :
    (processMessage L i acc m).totalCacheWrites
      = match cacheField "cacheWrites" m with
        | some q => some (acc.totalCacheWrites.getD 0 + q)
        | none => acc.totalCacheWrites := by
  rw [processMessage_eq]
  rcases m with ⟨ty, sy, ts, tx⟩
  rcases tx with _ | t
  · simp [cacheField, countedB]
  rcases t with _ | v
  · simp [cacheField, countedB]
  by_cases hA : isApiReqStarted ⟨ty, sy, ts, some (.parsed v)⟩
  · cases hd : destructOk v
    · simp [hA, hd, cacheField, countedB]
    · simp only [hA, hd, Bool.and_self, if_true, cacheField, countedB,
        payloadField, applyFields]
  · simp at hA
    simp [hA, cacheField, countedB]

theorem processMessage_totalCacheReads (L : Option ℕ) (i : ℕ) (acc : ApiMetrics)
    (m : ClineMessage) :
    (processMessage L i acc m).totalCacheReads
      = match cacheField "cacheReads" m with
        | some q => some (acc.totalCacheReads.getD 0 + q)
        | none => acc.totalCacheReads := by
  rw [processMessage_eq]
  rcases m with ⟨ty, sy, ts, tx⟩
  rcases tx with _ | t
  · simp [cacheField, countedB]
  rcases t with _ | v
  · simp [cacheField, countedB]
  by_cases hA : isApiReqStarted ⟨ty, sy, ts, some (.parsed v)⟩
  · cases hd : destructOk v
    · simp [hA, hd, cacheField, countedB]
    · simp only [hA, hd, Bool.and_self, if_true, cacheField, countedB,
        payloadField, applyFields]
  · simp at hA
    simp [hA, cacheField, countedB]

theorem processMessage_averageDuration (L : Option ℕ) (i : ℕ) (acc : ApiMetrics)
    (m : ClineMessage) :
    (processMessage L i acc m).averageDuration = acc.averageDuration := by
  rw [processMessage_eq]
  rcases m with ⟨ty, sy, ts, tx⟩
  rcases tx with _ | t
  · simp
  rcases t with _ | v
  · simp
  by_cases hA : isApiReqStarted ⟨ty, sy, ts, some (.parsed v)⟩
  · cases hd : destructOk v
    · simp [hA, hd]
    · simp [hA, hd, applyFields]
  · simp at hA
    simp [hA]

theorem processMessage_totalDuration (L : Option ℕ) (i : ℕ) (acc : ApiMetrics)
    (m : ClineMessage) :
    (processMessage L i acc m).totalDuration
      = acc.totalDuration + (if posCounted m then derivedDuration m else 0) := by
  rw [processMessage_eq]
  rcases m with ⟨ty, sy, ts, tx⟩
  rcases tx with _ | t
  · simp [posCounted, countedB]
  rcases t with _ | v
  · simp [posCounted, countedB]
  by_cases hA : isApiReqStarted ⟨ty, sy, ts, some (.parsed v)⟩
  · cases hd : destructOk v
    · simp [hA, hd, posCounted, countedB]
    · simp only [hA, hd, Bool.and_self, if_true, posCounted, countedB,
        derivedDuration, applyFields]
      by_cases hrd : 0 < reqDuration v <;> simp [hrd]
  · simp at hA
    simp [hA, posCounted, countedB]

theorem processMessage_performanceHistory (L : Option ℕ) (i : ℕ)
    (acc : ApiMetrics) (m : ClineMessage) :
    (processMessage L i acc m).performanceHistory
      = if posCounted m then acc.performanceHistory ++ [entryOf m]
        else acc.performanceHistory := by
  rw [processMessage_eq]
  rcases m with ⟨ty, sy, ts, tx⟩
  rcases tx with _ | t
  · simp [posCounted, countedB]
  rcases t with _ | v
  · simp [posCounted, countedB]
  by_cases hA : isApiReqStarted ⟨ty, sy, ts, some (.parsed v)⟩
  · cases hd : destructOk v
    · simp [hA, hd, posCounted, countedB]
    · simp only [hA, hd, Bool.and_self, if_true, posCounted, countedB,
        derivedDuration, entryOf, payloadField, applyFields]
      by_cases hrd : 0 < reqDuration v <;> simp [hrd]
  · simp at hA
    simp [hA, posCounted, countedB]

theorem processMessage_requestsByProvider (L : Option ℕ) (i : ℕ)
    (acc : ApiMetrics) (m : ClineMessage) :
    (processMessage L i acc m).requestsByProvider
      = match mapPair "provider" (fun _ => 1) m with
        | some p => bump acc.requestsByProvider p.1 p.2
        | none => acc.requestsByProvider := by
  rw [processMessage_eq]
  rcases m with ⟨ty, sy, ts, tx⟩
  rcases tx with _ | t
  · simp [mapPair, posCounted, countedB]
  rcases t with _ | v
  · simp [mapPair, posCounted, countedB]
  by_cases hA : isApiReqStarted ⟨ty, sy, ts, some (.parsed v)⟩
  · cases hd : destructOk v
    · simp [hA, hd, mapPair, posCounted, countedB]
    · simp only [hA, hd, Bool.and_self, if_true, mapPair, posCounted, countedB,
        derivedDuration, payloadField, applyFields]
      by_cases hrd : 0 < reqDuration v
      · cases hp : getField v "provider" with
        | none => simp [hrd, hp]
        | some p => cases hf : falsy p <;> simp [hrd, hp, hf]
      · simp [hrd]
  · simp at hA
    simp [hA, mapPair, posCounted, countedB]

theorem processMessage_durationByProvider (L : Option ℕ) (i : ℕ)
    (acc : ApiMetrics) (m : ClineMessage) :
    (processMessage L i acc m).durationByProvider
      = match mapPair "provider" derivedDuration m with
        | some p => bump acc.durationByProvider p.1 p.2
        | none => acc.durationByProvider := by
  rw [processMessage_eq]
  rcases m with ⟨ty, sy, ts, tx⟩
  rcases tx with _ | t
  · simp [mapPair, posCounted, countedB]
  rcases t with _ | v
  · simp [mapPair, posCounted, countedB]
  by_cases hA : isApiReqStarted ⟨ty, sy, ts, some (.parsed v)⟩
  · cases hd : destructOk v
    · simp [hA, hd, mapPair, posCounted, countedB]
    · simp only [hA, hd, Bool.and_self, if_true, mapPair, posCounted, countedB,
        derivedDuration, payloadField, applyFields]
      by_cases hrd : 0 < reqDuration v
      · cases hp : getField v "provider" with
        | none => simp [hrd, hp]
        | some p => cases hf : falsy p <;> simp [hrd, hp, hf]
      · simp [hrd]
  · simp at hA
    simp [hA, mapPair, posCounted, countedB]

theorem processMessage_requestsByModel (L : Option ℕ) (i : ℕ)
    (acc : ApiMetrics) (m : ClineMessage) :
    (processMessage L i acc m).requestsByModel
      = match mapPair "modelId" (fun _ => 1) m with
        | some p => bump acc.requestsByModel p.1 p.2
        | none => acc.requestsByModel := by
  rw [processMessage_eq]
  rcases m with ⟨ty, sy, ts, tx⟩
  rcases tx with _ | t
  · simp [mapPair, posCounted, countedB]
  rcases t with _ | v
  · simp [mapPair, posCounted, countedB]
  by_cases hA : isApiReqStarted ⟨ty, sy, ts, some (.parsed v)⟩
  · cases hd : destructOk v
    · simp [hA, hd, mapPair, posCounted, countedB]
    · simp only [hA, hd, Bool.and_self, if_true, mapPair, posCounted, countedB,
        derivedDuration, payloadField, applyFields]
      by_cases hrd : 0 < reqDuration v
      · cases hp : getField v "modelId" with
        | none => simp [hrd, hp]
        | some p => cases hf : falsy p <;> simp [hrd, hp, hf]
      · simp [hrd]
  · simp at hA
    simp [hA, mapPair, posCounted, countedB]

theorem processMessage_durationByModel (L : Option ℕ) (i : ℕ)
    (acc : ApiMetrics) (m : ClineMessage) :
    (processMessage L i acc m).durationByModel
      = match mapPair "modelId" derivedDuration m with
        | some p => bump acc.durationByModel p.1 p.2
        | none => acc.durationByModel := by
  rw [processMessage_eq]
  rcases m with ⟨ty, sy, ts, tx⟩
  rcases tx with _ | t
  · simp [mapPair, posCounted, countedB]
  rcases t with _ | v
  · simp [mapPair, posCounted, countedB]
  by_cases hA : isApiReqStarted ⟨ty, sy, ts, some (.parsed v)⟩
  · cases hd : destructOk v
    · simp [hA, hd, mapPair, posCounted, countedB]
    · simp only [hA, hd, Bool.and_self, if_true, mapPair, posCounted, countedB,
        derivedDuration, payloadField, applyFields]
      by_cases hrd : 0 < reqDuration v
      · cases hp : getField v "modelId" with
        | none => simp [hrd, hp]
        | some p => cases hf : falsy p <;> simp [hrd, hp, hf]
      · simp [hrd]
  · simp at hA
    simp [hA, mapPair, posCounted, countedB]

theorem processMessage_contextTokens (L : Option ℕ) (i : ℕ) (acc : ApiMetrics)
    (m : ClineMessage) :
    (processMessage L i acc m).contextTokens
      = if countedB m then
          (if L = some i then getTotalTokensFromMessage m else acc.contextTokens)
        else acc.contextTokens := by
  rw [processMessage_eq]
  rcases m with ⟨ty, sy, ts, tx⟩
  rcases tx with _ | t
  · simp [countedB]
  rcases t with _ | v
  · simp [countedB]
  by_cases hA : isApiReqStarted ⟨ty, sy, ts, some (.parsed v)⟩
  · cases hd : destructOk v
    · simp [hA, hd, countedB]
    · simp [hA, hd, countedB, applyFields]
  · simp at hA
    simp [hA, countedB]

/-!  ## Whole-run characterizations of the components  -/

theorem sum_map_ite {β : Type} (p : β → Bool) (f : β → ℚ) (ms : List β) :
    (ms.map (fun m => if p m then f m else 0)).sum = ((ms.filter p).map f).sum := by
  induction ms with
  | nil => simp
  | cons m rest ih =>
    by_cases h : p m <;> simp [List.filter_cons, h, ih]

theorem foldl_const {α β : Type} (l : List β) (x : α) :
    l.foldl (fun a _ => a) x = x := by
  induction l with
  | nil => rfl
  | cons m rest ih => exact ih

theorem cacheList_eq (k : String) (ms : List ClineMessage) :
    cacheList k ms = ms.filterMap (cacheField k) := rfl

theorem metrics_totalTokensIn (ms : List ClineMessage) :
    (getApiMetrics ms).totalTokensIn
      = (ms.map (fun m => contribNum m "tokensIn")).sum := by
  unfold getApiMetrics
  rw [finishAvg_totalTokensIn,
    runFrom_comp ApiMetrics.totalTokensIn
      (fun a m => a + contribNum m "tokensIn") processMessage_totalTokensIn ms _ 0,
    foldl_add_map]
  simp [initMetrics]

theorem metrics_totalTokensOut (ms : List ClineMessage) :
    (getApiMetrics ms).totalTokensOut
      = (ms.map (fun m => contribNum m "tokensOut")).sum := by
  unfold getApiMetrics
  rw [finishAvg_totalTokensOut,
    runFrom_comp ApiMetrics.totalTokensOut
      (fun a m => a + contribNum m "tokensOut") processMessage_totalTokensOut ms _ 0,
    foldl_add_map]
  simp [initMetrics]

theorem metrics_totalCost (ms : List ClineMessage) :
    (getApiMetrics ms).totalCost = (ms.map (fun m => contribNum m "cost")).sum := by
  unfold getApiMetrics
  rw [finishAvg_totalCost,
    runFrom_comp ApiMetrics.totalCost
      (fun a m => a + contribNum m "cost") processMessage_totalCost ms _ 0,
    foldl_add_map]
  simp [initMetrics]

theorem metrics_requestCount (ms : List ClineMessage) :
    (getApiMetrics ms).requestCount = (ms.filter countedB).length := by
  unfold getApiMetrics
  rw [finishAvg_requestCount,
    runFrom_comp ApiMetrics.requestCount
      (fun a m => a + (if countedB m then 1 else 0)) processMessage_requestCount ms _ 0,
    foldl_count]
  simp [initMetrics]

theorem metrics_totalDuration (ms : List ClineMessage) :
    (getApiMetrics ms).totalDuration
      = ((ms.filter posCounted).map derivedDuration).sum := by
  unfold getApiMetrics
  rw [finishAvg_totalDuration,
    runFrom_comp ApiMetrics.totalDuration
      (fun a m => a + (if posCounted m then derivedDuration m else 0))
      processMessage_totalDuration ms _ 0,
    foldl_add_map, sum_map_ite]
  simp [initMetrics]

theorem metrics_performanceHistory (ms : List ClineMessage) :
    (getApiMetrics ms).performanceHistory = (ms.filter posCounted).map entryOf := by
  unfold getApiMetrics
  rw [finishAvg_performanceHistory,
    runFrom_comp ApiMetrics.performanceHistory
      (fun a m => if posCounted m then a ++ [entryOf m] else a)
      processMessage_performanceHistory ms _ 0,
    foldl_if_append]
  simp [initMetrics]

theorem metrics_totalCacheWrites (ms : List ClineMessage) :
    (getApiMetrics ms).totalCacheWrites
      = if (cacheList "cacheWrites" ms).isEmpty then none
        else some ((cacheList "cacheWrites" ms).sum) := by
  unfold getApiMetrics
  rw [finishAvg_totalCacheWrites,
    runFrom_comp ApiMetrics.totalCacheWrites
      (stepOpt (cacheField "cacheWrites") (fun a q => some (a.getD 0 + q)))
      (fun L i acc m => by
        rw [processMessage_totalCacheWrites]
        unfold stepOpt
        cases cacheField "cacheWrites" m <;> rfl) ms _ 0,
    foldl_filterMap, ← cacheList_eq, foldl_cacheAcc]
  simp [initMetrics]

theorem metrics_totalCacheReads (ms : List ClineMessage) :
    (getApiMetrics ms).totalCacheReads
      = if (cacheList "cacheReads" ms).isEmpty then none
        else some ((cacheList "cacheReads" ms).sum) := by
  unfold getApiMetrics
  rw [finishAvg_totalCacheReads,
    runFrom_comp ApiMetrics.totalCacheReads
      (stepOpt (cacheField "cacheReads") (fun a q => some (a.getD 0 + q)))
      (fun L i acc m => by
        rw [processMessage_totalCacheReads]
        unfold stepOpt
        cases cacheField "cacheReads" m <;> rfl) ms _ 0,
    foldl_filterMap, ← cacheList_eq, foldl_cacheAcc]
  simp [initMetrics]

theorem metrics_requestsByProvider (ms : List ClineMessage) :
    (getApiMetrics ms).requestsByProvider
      = buildMap (ms.filterMap (mapPair "provider" (fun _ => 1))) := by
  unfold getApiMetrics
  rw [finishAvg_requestsByProvider,
    runFrom_comp ApiMetrics.requestsByProvider
      (stepOpt (mapPair "provider" (fun _ => 1)) (fun a p => bump a p.1 p.2))
      (fun L i acc m => by
        rw [processMessage_requestsByProvider]
        unfold stepOpt
        cases mapPair "provider" (fun _ => 1) m <;> rfl) ms _ 0,
    foldl_filterMap]
  rfl

theorem metrics_durationByProvider (ms : List ClineMessage) :
    (getApiMetrics ms).durationByProvider
      = buildMap (ms.filterMap (mapPair "provider" derivedDuration)) := by
  unfold getApiMetrics
  rw [finishAvg_durationByProvider,
    runFrom_comp ApiMetrics.durationByProvider
      (stepOpt (mapPair "provider" derivedDuration) (fun a p => bump a p.1 p.2))
      (fun L i acc m => by
        rw [processMessage_durationByProvider]
        unfold stepOpt
        cases mapPair "provider" derivedDuration m <;> rfl) ms _ 0,
    foldl_filterMap]
  rfl

theorem metrics_requestsByModel (ms : List ClineMessage) :
    (getApiMetrics ms).requestsByModel
      = buildMap (ms.filterMap (mapPair "modelId" (fun _ => 1))) := by
  unfold getApiMetrics
  rw [finishAvg_requestsByModel,
    runFrom_comp ApiMetrics.requestsByModel
      (stepOpt (mapPair "modelId" (fun _ => 1)) (fun a p => bump a p.1 p.2))
      (fun L i acc m => by
        rw [processMessage_requestsByModel]
        unfold stepOpt
        cases mapPair "modelId" (fun _ => 1) m <;> rfl) ms _ 0,
    foldl_filterMap]
  rfl

theorem metrics_durationByModel (ms : List ClineMessage) :
    (getApiMetrics ms).durationByModel
      = buildMap (ms.filterMap (mapPair "modelId" derivedDuration)) := by
  unfold getApiMetrics
  rw [finishAvg_durationByModel,
    runFrom_comp ApiMetrics.durationByModel
      (stepOpt (mapPair "modelId" derivedDuration) (fun a p => bump a p.1 p.2))
      (fun L i acc m => by
        rw [processMessage_durationByModel]
        unfold stepOpt
        cases mapPair "modelId" derivedDuration m <;> rfl) ms _ 0,
    foldl_filterMap]
  rfl

theorem runFrom_averageDuration (L : Option ℕ) (ms : List ClineMessage)
    (i : ℕ) (acc : ApiMetrics) :
    (runFrom L i acc ms).averageDuration = acc.averageDuration := by
  rw [runFrom_comp ApiMetrics.averageDuration (fun a _ => a)
    (fun L i acc m => processMessage_averageDuration L i acc m) ms L i acc,
    foldl_const]

/-!  ## `contextTokens` and the reverse scan  -/

theorem jsGt0_zero : jsGt0 (.jnum 0) = false := rfl

/-- Step from the head of a cons cell at a positive index. -/
theorem get_cons_pos {α : Type} (a : α) (l : List α) (k : ℕ)
    (hk : k < (a :: l).length) (hpos : 0 < k)
    (hk2 : k - 1 < l.length) :
    (a :: l).get ⟨k, hk⟩ = l.get ⟨k - 1, hk2⟩ := by
  have he : (⟨k, hk⟩ : Fin (a :: l).length)
      = ⟨(k - 1) + 1, by simp only [List.length_cons]; omega⟩ := by
    apply Fin.ext
    simp only []
    omega
  rw [he]
  rfl

theorem get_congr {α : Type} (l : List α) (a b : ℕ) (ha : a < l.length)
    (hb : b < l.length) (hab : a = b) : l.get ⟨a, ha⟩ = l.get ⟨b, hb⟩ := by
  subst hab
  rfl

/-- A qualifying message (found by the reverse scan) necessarily reaches
the end of the `try` block in the forward scan: a missing, malformed or
`null` payload makes `getTotalTokensFromMessage` return `0`. -/
theorem qualifies_countedB (m : ClineMessage) (h : qualifies m = true) :
    countedB m = true := by
  rcases m with ⟨ty, sy, ts, tx⟩
  rcases tx with _ | t
  · simp [qualifies, getTotalTokensFromMessage, jsGt0_zero] at h
  rcases t with _ | v
  · simp [qualifies, getTotalTokensFromMessage, jsGt0_zero] at h
  cases hd : destructOk v
  · simp [qualifies, getTotalTokensFromMessage, hd, jsGt0_zero] at h
  · simp only [qualifies, Bool.and_eq_true] at h
    simp [countedB, hd, h.1]

theorem lastQualIdxAux_none (ms : List ClineMessage) :
    ∀ i, lastQualIdxAux i ms = none → ∀ m ∈ ms, qualifies m = false := by
  induction ms with
  | nil => simp
  | cons m rest ih =>
    intro i h
    unfold lastQualIdxAux at h
    cases hr : lastQualIdxAux (i + 1) rest with
    | some j => rw [hr] at h; simp at h
    | none =>
      rw [hr] at h
      intro x hx
      rcases List.mem_cons.mp hx with rfl | hx2
      · by_cases hq : qualifies x
        · rw [if_pos hq] at h; cases h
        · simpa using hq
      · exact ih (i + 1) hr x hx2

theorem lastQualIdxAux_none_iff (ms : List ClineMessage) :
    ∀ i, lastQualIdxAux i ms = none ↔ lastQualMsg ms = none := by
  induction ms with
  | nil => intro i; simp [lastQualIdxAux, lastQualMsg]
  | cons m rest ih =>
    intro i
    unfold lastQualIdxAux lastQualMsg
    cases hr : lastQualIdxAux (i + 1) rest with
    | some j =>
      cases hg : lastQualMsg rest with
      | some x => simp
      | none =>
        rw [(ih (i + 1)).mpr hg] at hr
        cases hr
    | none =>
      rw [(ih (i + 1)).mp hr]
      by_cases hq : qualifies m <;> simp [hq]

theorem lastQualIdxAux_some (ms : List ClineMessage) :
    ∀ i j, lastQualIdxAux i ms = some j →
      i ≤ j ∧ ∃ h : j - i < ms.length,
        lastQualMsg ms = some (ms.get ⟨j - i, h⟩) ∧
        qualifies (ms.get ⟨j - i, h⟩) = true ∧
        ∀ k, (hk : k < ms.length) → j - i < k →
          qualifies (ms.get ⟨k, hk⟩) = false := by
  induction ms with
  | nil => intro i j h; cases h
  | cons m rest ih =>
    intro i j h
    unfold lastQualIdxAux at h
    cases hr : lastQualIdxAux (i + 1) rest with
    | some j2 =>
      rw [hr] at h
      injection h with h2
      rw [h2] at hr
      obtain ⟨hij, hlt, hmsg, hq, hmax⟩ := ih (i + 1) j hr
      have hij0 : i ≤ j := Nat.le_of_succ_le hij
      have hlt2 : j - i < (m :: rest).length := by
        simp only [List.length_cons]; omega
      have hget : (m :: rest).get ⟨j - i, hlt2⟩ = rest.get ⟨j - (i + 1), hlt⟩ := by
        have hpos : 0 < j - i := by omega
        rw [get_cons_pos m rest (j - i) hlt2 hpos (by omega)]
        exact get_congr rest _ _ _ _ (by omega)
      refine ⟨hij0, hlt2, ?_, ?_, ?_⟩
      · rw [hget]
        unfold lastQualMsg
        rw [hmsg]
      · rw [hget]; exact hq
      · intro k hk hjk
        have hk2 : k - 1 < rest.length := by
          simp only [List.length_cons] at hk; omega
        rw [get_cons_pos m rest k hk (by omega) hk2]
        exact hmax (k - 1) hk2 (by omega)
    | none =>
      rw [hr] at h
      by_cases hq : qualifies m
      · rw [if_pos hq] at h
        injection h with h2
        rw [← h2]
        have hlt2 : i - i < (m :: rest).length := by
          simp only [List.length_cons, Nat.sub_self]; omega
        have hget : (m :: rest).get ⟨i - i, hlt2⟩ = m := by
          have he : (⟨i - i, hlt2⟩ : Fin (m :: rest).length)
              = ⟨0, by simp⟩ := by
            apply Fin.ext
            simp only [Nat.sub_self]
          rw [he]
          rfl
        refine ⟨Nat.le_refl i, hlt2, ?_, ?_, ?_⟩
        · rw [hget]
          unfold lastQualMsg
          rw [(lastQualIdxAux_none_iff rest (i + 1)).mp hr, if_pos hq]
        · rw [hget]; exact hq
        · intro k hk hjk
          rw [Nat.sub_self] at hjk
          have hk2 : k - 1 < rest.length := by
            simp only [List.length_cons] at hk; omega
          rw [get_cons_pos m rest k hk hjk hk2]
          exact lastQualIdxAux_none rest (i + 1) hr _ (List.get_mem rest (k - 1) hk2)
      · rw [if_neg hq] at h
        cases h

theorem runFrom_ctx_high (ms : List ClineMessage) :
    ∀ (L : Option ℕ) (i : ℕ) (acc : ApiMetrics),
      (∀ j, L = some j → j < i) →
      (runFrom L i acc ms).contextTokens = acc.contextTokens := by
  induction ms with
  | nil => intro L i acc _; rfl
  | cons m rest ih =>
    intro L i acc hL
    unfold runFrom
    rw [ih L (i + 1) _ (fun j hj => Nat.lt_succ_of_lt (hL j hj)),
      processMessage_contextTokens]
    by_cases hc : countedB m
    · rw [if_pos hc]
      by_cases hLi : L = some i
      · exact absurd (hL i hLi) (lt_irrefl i)
      · rw [if_neg hLi]
    · rw [if_neg (by simpa using hc)]

theorem runFrom_ctx_at (ms : List ClineMessage) :
    ∀ (i : ℕ) (acc : ApiMetrics) (j : ℕ), i ≤ j →
      ∀ (hlt : j - i < ms.length),
      countedB (ms.get ⟨j - i, hlt⟩) = true →
      (runFrom (some j) i acc ms).contextTokens
        = getTotalTokensFromMessage (ms.get ⟨j - i, hlt⟩) := by
  induction ms with
  | nil => intro i acc j hij hlt; simp at hlt
  | cons m rest ih =>
    intro i acc j hij hlt hc
    unfold runFrom
    rcases Nat.eq_or_lt_of_le hij with rfl | hlt2
    · have hget : (m :: rest).get ⟨i - i, hlt⟩ = m := by
        have he : (⟨i - i, hlt⟩ : Fin (m :: rest).length) = ⟨0, by simp⟩ := by
          apply Fin.ext
          simp only [Nat.sub_self]
        rw [he]
        rfl
      rw [hget] at hc ⊢
      rw [runFrom_ctx_high rest (some i) (i + 1) _
        (fun j0 hj0 => by injection hj0 with h2; omega),
        processMessage_contextTokens, if_pos hc, if_pos rfl]
    · have hij2 : i + 1 ≤ j := hlt2
      have hltr : j - (i + 1) < rest.length := by
        simp only [List.length_cons] at hlt; omega
      have hget : (m :: rest).get ⟨j - i, hlt⟩ = rest.get ⟨j - (i + 1), hltr⟩ := by
        rw [get_cons_pos m rest (j - i) hlt (by omega) (by omega)]
        exact get_congr rest _ _ _ _ (by omega)
      rw [hget] at hc ⊢
      exact ih (i + 1) _ j hij2 hltr hc

/-- `contextTokens` is the helper's value on the last qualifying message,
or `0` when none qualifies. -/
theorem metrics_contextTokens (ms : List ClineMessage) :
    (getApiMetrics ms).contextTokens
      = match lastQualMsg ms with
        | some x => getTotalTokensFromMessage x
        | none => .jnum 0 := by
  unfold getApiMetrics lastQualIdx
  rw [finishAvg_contextTokens]
  cases hL : lastQualIdxAux 0 ms with
  | none =>
    rw [(lastQualIdxAux_none_iff ms 0).mp hL,
      runFrom_ctx_high ms none 0 initMetrics (by intro j hj; cases hj)]
    rfl
  | some j =>
    obtain ⟨hij, hlt, hmsg, hq, hmax⟩ := lastQualIdxAux_some ms 0 j hL
    rw [hmsg]
    exact runFrom_ctx_at ms 0 initMetrics j (Nat.zero_le j) hlt
      (qualifies_countedB _ hq)

/-!  ## `averageDuration`  -/

theorem finishAvg_avg (r : ApiMetrics) (h0 : r.averageDuration = 0) :
    (finishAvg r).averageDuration
      = if 0 < (finishAvg r).requestCount ∧ 0 < (finishAvg r).totalDuration
        then (finishAvg r).totalDuration / ((finishAvg r).requestCount : ℚ)
        else 0 := by
  rw [finishAvg_requestCount, finishAvg_totalDuration]
  unfold finishAvg
  by_cases h : 0 < r.requestCount ∧ 0 < r.totalDuration
  · rw [if_pos h, if_pos h]
  · rw [if_neg h, if_neg h]
    exact h0

theorem metrics_averageDuration (ms : List ClineMessage) :
    (getApiMetrics ms).averageDuration
      = if 0 < (getApiMetrics ms).requestCount ∧ 0 < (getApiMetrics ms).totalDuration
        then (getApiMetrics ms).totalDuration / ((getApiMetrics ms).requestCount : ℚ)
        else 0 := by
  unfold getApiMetrics
  exact finishAvg_avg _ (by rw [runFrom_averageDuration]; rfl)

/-!  ## Key sets and value bounds of the grouping maps  -/

/-- Key insertion as `bump` performs it on the key list. -/
def insKey (ks : List String) (k : String) : List String :=
  if k ∈ ks then ks else ks ++ [k]

theorem bump_keys (mp : List (String × ℚ)) (k : String) (d : ℚ) :
    (bump mp k d).map Prod.fst = insKey (mp.map Prod.fst) k := by
  unfold bump insKey
  by_cases h : mp.any (fun p => p.1 = k)
  · rw [if_pos h, if_pos]
    · rw [List.map_map]
      apply List.map_congr_left
      intro p _
      by_cases hpk : p.1 = k <;> simp [hpk]
    · simp only [List.any_eq_true, decide_eq_true_eq] at h
      obtain ⟨p, hp, hpe⟩ := h
      exact hpe ▸ List.mem_map_of_mem Prod.fst hp
  · rw [if_neg h, if_neg]
    · simp
    · intro hk
      apply h
      obtain ⟨p, hp, hpe⟩ := List.mem_map.mp hk
      simp only [List.any_eq_true, decide_eq_true_eq]
      exact ⟨p, hp, hpe⟩

theorem foldl_bump_keys (l : List (String × ℚ)) :
    ∀ mp : List (String × ℚ),
      ((l.foldl (fun mp p => bump mp p.1 p.2) mp).map Prod.fst)
        = (l.map Prod.fst).foldl insKey (mp.map Prod.fst) := by
  induction l with
  | nil => intro mp; rfl
  | cons p rest ih =>
    intro mp
    simp only [List.foldl_cons, List.map_cons, ih, bump_keys]

theorem buildMap_keys_congr (l1 l2 : List (String × ℚ))
    (h : l1.map Prod.fst = l2.map Prod.fst) :
    (buildMap l1).map Prod.fst = (buildMap l2).map Prod.fst := by
  unfold buildMap
  rw [foldl_bump_keys, foldl_bump_keys, h]

theorem bump_pres (P : ℚ → Prop) (hadd : ∀ a b, P a → P b → P (a + b))
    (mp : List (String × ℚ)) (k : String) (d : ℚ) (hd : P d)
    (hmp : ∀ p ∈ mp, P p.2) : ∀ p ∈ bump mp k d, P p.2 := by
  intro p hp
  unfold bump at hp
  by_cases h : mp.any (fun q => q.1 = k)
  · rw [if_pos h] at hp
    obtain ⟨q, hq, hqe⟩ := List.mem_map.mp hp
    by_cases hqk : q.1 = k
    · rw [if_pos hqk] at hqe
      rw [← hqe]
      exact hadd _ _ (hmp q hq) hd
    · rw [if_neg hqk] at hqe
      rw [← hqe]
      exact hmp q hq
  · rw [if_neg h] at hp
    rcases List.mem_append.mp hp with h1 | h2
    · exact hmp p h1
    · simp only [List.mem_singleton] at h2
      rw [h2]
      exact hd

theorem foldl_bump_pres (P : ℚ → Prop) (hadd : ∀ a b, P a → P b → P (a + b))
    (l : List (String × ℚ)) (hl : ∀ p ∈ l, P p.2) :
    ∀ mp : List (String × ℚ), (∀ p ∈ mp, P p.2) →
      ∀ p ∈ l.foldl (fun mp p => bump mp p.1 p.2) mp, P p.2 := by
  induction l with
  | nil => intro mp hmp; exact hmp
  | cons q rest ih =>
    intro mp hmp
    simp only [List.foldl_cons]
    exact ih (fun p hp => hl p (List.mem_cons_of_mem q hp)) _
      (bump_pres P hadd mp q.1 q.2 (hl q (List.mem_cons_self q rest)) hmp)

theorem buildMap_pres (P : ℚ → Prop) (hadd : ∀ a b, P a → P b → P (a + b))
    (l : List (String × ℚ)) (hl : ∀ p ∈ l, P p.2) :
    ∀ p ∈ buildMap l, P p.2 :=
  foldl_bump_pres P hadd l hl [] (by intro p hp; cases hp)

theorem mapPair_fst_congr (k : String) (w w2 : ClineMessage → ℚ)
    (ms : List ClineMessage) :
    (ms.filterMap (mapPair k w)).map Prod.fst
      = (ms.filterMap (mapPair k w2)).map Prod.fst := by
  induction ms with
  | nil => rfl
  | cons m rest ih =>
    simp only [List.filterMap_cons]
    unfold mapPair
    by_cases hp : posCounted m
    · rw [if_pos hp, if_pos hp]
      cases hf : payloadField m k with
      | none => exact ih
      | some p =>
        by_cases hfa : falsy p <;> (simp [hfa]; exact ih)
    · rw [if_neg hp, if_neg hp]
      exact ih

theorem mapPair_snd (P : ℚ → Prop) (k : String) (w : ClineMessage → ℚ)
    (hw : ∀ m, posCounted m = true → P (w m)) (ms : List ClineMessage) :
    ∀ p ∈ ms.filterMap (mapPair k w), P p.2 := by
  intro p hp
  obtain ⟨m, _, hme⟩ := List.mem_filterMap.mp hp
  unfold mapPair at hme
  by_cases hpc : posCounted m
  · rw [if_pos hpc] at hme
    cases hf : payloadField m k with
    | none => rw [hf] at hme; cases hme
    | some q =>
      rw [hf] at hme
      by_cases hfa : falsy q
      · simp [hfa] at hme
      · simp [hfa] at hme
        subst hme
        exact hw m hpc
  · rw [if_neg hpc] at hme
    cases hme

/-!  ## Payload shapes that are skipped or only counted  -/

/-- A payload on which the `try` block throws before counting anything:
missing (or empty) text, malformed JSON, or JSON `null` (destructuring
`null` throws a `TypeError`). -/
def skipPayload (m : ClineMessage) : Bool :=
  match m.text with
  | none => true
  | some .malformed => true
  | some (.parsed .jnull) => true
  | some (.parsed _) => false

/-- A payload that parses to a JSON value that is neither an object nor
`null` (number, string, boolean or array): destructuring succeeds with all
fields `undefined`. -/
def nonObjPayload (m : ClineMessage) : Bool :=
  match m.text with
  | some (.parsed v) =>
    (match v with
     | .jnull => false
     | .jobj _ => false
     | _ => true)
  | _ => false

theorem skip_counted (m : ClineMessage) (h : skipPayload m = true) :
    countedB m = false := by
  rcases m with ⟨ty, sy, ts, tx⟩
  unfold countedB
  rcases tx with _ | t
  · simp
  rcases t with _ | v
  · simp
  cases v <;> simp [skipPayload, destructOk] at h ⊢

theorem skip_qualifies (m : ClineMessage) (h : skipPayload m = true) :
    qualifies m = false := by
  cases hq : qualifies m
  · rfl
  · have hc := qualifies_countedB m hq
    rw [skip_counted m h] at hc
    cases hc

theorem jsOrZero_none : jsOrZero none = JVal.jnum 0 := rfl

theorem jsAdd_num (a b : ℚ) :
    jsAdd (.jnum a) (.jnum b) = .jnum (a + b) := rfl

theorem jsGt0_num (q : ℚ) : jsGt0 (.jnum q) = decide (0 < q) := rfl

theorem jsGt0_quad_zero :
    jsGt0 (jsAdd (jsAdd (jsAdd (jsOrZero none) (jsOrZero none))
      (jsOrZero none)) (jsOrZero none)) = false := by
  simp only [jsOrZero_none, jsAdd_num, jsGt0_num]
  norm_num

theorem nonObj_payloadField (m : ClineMessage) (h : nonObjPayload m = true)
    (k : String) : payloadField m k = none := by
  rcases m with ⟨ty, sy, ts, tx⟩
  unfold payloadField
  rcases tx with _ | t
  · rfl
  rcases t with _ | v
  · rfl
  cases v <;> simp [nonObjPayload, getField] at h ⊢

theorem nonObj_counted (m : ClineMessage) (h : nonObjPayload m = true) :
    countedB m = isApiReqStarted m := by
  rcases m with ⟨ty, sy, ts, tx⟩
  unfold countedB
  rcases tx with _ | t
  · simp [nonObjPayload] at h
  rcases t with _ | v
  · simp [nonObjPayload] at h
  cases v <;> simp [nonObjPayload, destructOk] at h ⊢

theorem nonObj_derived (m : ClineMessage) (h : nonObjPayload m = true) :
    derivedDuration m = 0 := by
  rcases m with ⟨ty, sy, ts, tx⟩
  unfold derivedDuration
  rcases tx with _ | t
  · rfl
  rcases t with _ | v
  · rfl
  cases v <;>
    simp [nonObjPayload, reqDuration, getField, numOf] at h ⊢

theorem nonObj_qualifies (m : ClineMessage) (h : nonObjPayload m = true) :
    qualifies m = false := by
  rcases m with ⟨ty, sy, ts, tx⟩
  unfold qualifies getTotalTokensFromMessage
  rcases tx with _ | t
  · simp [jsGt0_zero]
  rcases t with _ | v
  · simp [jsGt0_zero]
  cases v with
  | jnull => simp [nonObjPayload] at h
  | jobj fs => simp [nonObjPayload] at h
  | jbool b => simp [destructOk, getField, jsGt0_quad_zero]
  | jnum q => simp [destructOk, getField, jsGt0_quad_zero]
  | jstr s => simp [destructOk, getField, jsGt0_quad_zero]
  | jarr xs => simp [destructOk, getField, jsGt0_quad_zero]

theorem lastQualMsg_insert (m : ClineMessage) (hq : qualifies m = false) :
    ∀ ms1 ms2 : List ClineMessage,
      lastQualMsg (ms1 ++ m :: ms2) = lastQualMsg (ms1 ++ ms2) := by
  intro ms1 ms2
  induction ms1 with
  | nil =>
    simp only [List.nil_append]
    have he : lastQualMsg (m :: ms2)
        = match lastQualMsg ms2 with
          | some x => some x
          | none => if qualifies m = true then some m else none := rfl
    rw [he, hq]
    cases hg : lastQualMsg ms2 with
    | some x => rfl
    | none => rfl
  | cons a rest ih =>
    simp only [List.cons_append]
    unfold lastQualMsg
    rw [ih]

/-!  ## Insertion of a contribution-free message  -/

theorem map_sum_insert (f : ClineMessage → ℚ) (ms1 ms2 : List ClineMessage)
    (m : ClineMessage) (h : f m = 0) :
    ((ms1 ++ m :: ms2).map f).sum = ((ms1 ++ ms2).map f).sum := by
  simp [h]

theorem filter_insert_false (p : ClineMessage → Bool)
    (ms1 ms2 : List ClineMessage) (m : ClineMessage) (h : p m = false) :
    (ms1 ++ m :: ms2).filter p = (ms1 ++ ms2).filter p := by
  simp [List.filter_append, List.filter_cons, h]

theorem filterMap_insert_none {γ : Type} (f : ClineMessage → Option γ)
    (ms1 ms2 : List ClineMessage) (m : ClineMessage) (h : f m = none) :
    (ms1 ++ m :: ms2).filterMap f = (ms1 ++ ms2).filterMap f := by
  simp [List.filterMap_append, List.filterMap_cons, h]

attribute [ext] ApiMetrics

/-- Inserting a message with a missing, malformed or `null` payload leaves
the whole summary unchanged. -/
theorem getApiMetrics_skip_insert (ms1 ms2 : List ClineMessage)
    (m : ClineMessage) (hs : skipPayload m = true) :
    getApiMetrics (ms1 ++ m :: ms2) = getApiMetrics (ms1 ++ ms2) := by
  have hc : countedB m = false := skip_counted m hs
  have hq : qualifies m = false := skip_qualifies m hs
  have hpc : posCounted m = false := by unfold posCounted; rw [hc]; rfl
  have hcn : ∀ k, contribNum m k = 0 := by
    intro k; unfold contribNum; rw [hc]; rfl
  have hcf : ∀ k, cacheField k m = none := by
    intro k; unfold cacheField; rw [hc]; rfl
  have hmp : ∀ k w, mapPair k w m = none := by
    intro k w; unfold mapPair; rw [hpc]; rfl
  have hTI : (getApiMetrics (ms1 ++ m :: ms2)).totalTokensIn
      = (getApiMetrics (ms1 ++ ms2)).totalTokensIn := by
    rw [metrics_totalTokensIn, metrics_totalTokensIn]
    exact map_sum_insert _ _ _ _ (hcn _)
  have hTO : (getApiMetrics (ms1 ++ m :: ms2)).totalTokensOut
      = (getApiMetrics (ms1 ++ ms2)).totalTokensOut := by
    rw [metrics_totalTokensOut, metrics_totalTokensOut]
    exact map_sum_insert _ _ _ _ (hcn _)
  have hCW : (getApiMetrics (ms1 ++ m :: ms2)).totalCacheWrites
      = (getApiMetrics (ms1 ++ ms2)).totalCacheWrites := by
    rw [metrics_totalCacheWrites, metrics_totalCacheWrites,
      cacheList_eq, cacheList_eq, filterMap_insert_none _ _ _ _ (hcf _)]
  have hCR : (getApiMetrics (ms1 ++ m :: ms2)).totalCacheReads
      = (getApiMetrics (ms1 ++ ms2)).totalCacheReads := by
    rw [metrics_totalCacheReads, metrics_totalCacheReads,
      cacheList_eq, cacheList_eq, filterMap_insert_none _ _ _ _ (hcf _)]
  have hCO : (getApiMetrics (ms1 ++ m :: ms2)).totalCost
      = (getApiMetrics (ms1 ++ ms2)).totalCost := by
    rw [metrics_totalCost, metrics_totalCost]
    exact map_sum_insert _ _ _ _ (hcn _)
  have hCT : (getApiMetrics (ms1 ++ m :: ms2)).contextTokens
      = (getApiMetrics (ms1 ++ ms2)).contextTokens := by
    rw [metrics_contextTokens, metrics_contextTokens,
      lastQualMsg_insert m hq ms1 ms2]
  have hTD : (getApiMetrics (ms1 ++ m :: ms2)).totalDuration
      = (getApiMetrics (ms1 ++ ms2)).totalDuration := by
    rw [metrics_totalDuration, metrics_totalDuration,
      filter_insert_false _ _ _ _ hpc]
  have hRC : (getApiMetrics (ms1 ++ m :: ms2)).requestCount
      = (getApiMetrics (ms1 ++ ms2)).requestCount := by
    rw [metrics_requestCount, metrics_requestCount,
      filter_insert_false _ _ _ _ hc]
  have hAVG : (getApiMetrics (ms1 ++ m :: ms2)).averageDuration
      = (getApiMetrics (ms1 ++ ms2)).averageDuration := by
    rw [metrics_averageDuration, metrics_averageDuration, hRC, hTD]
  have hRP : (getApiMetrics (ms1 ++ m :: ms2)).requestsByProvider
      = (getApiMetrics (ms1 ++ ms2)).requestsByProvider := by
    rw [metrics_requestsByProvider, metrics_requestsByProvider,
      filterMap_insert_none _ _ _ _ (hmp _ _)]
  have hRM : (getApiMetrics (ms1 ++ m :: ms2)).requestsByModel
      = (getApiMetrics (ms1 ++ ms2)).requestsByModel := by
    rw [metrics_requestsByModel, metrics_requestsByModel,
      filterMap_insert_none _ _ _ _ (hmp _ _)]
  have hDP : (getApiMetrics (ms1 ++ m :: ms2)).durationByProvider
      = (getApiMetrics (ms1 ++ ms2)).durationByProvider := by
    rw [metrics_durationByProvider, metrics_durationByProvider,
      filterMap_insert_none _ _ _ _ (hmp _ _)]
  have hDM : (getApiMetrics (ms1 ++ m :: ms2)).durationByModel
      = (getApiMetrics (ms1 ++ ms2)).durationByModel := by
    rw [metrics_durationByModel, metrics_durationByModel,
      filterMap_insert_none _ _ _ _ (hmp _ _)]
  have hPH : (getApiMetrics (ms1 ++ m :: ms2)).performanceHistory
      = (getApiMetrics (ms1 ++ ms2)).performanceHistory := by
    rw [metrics_performanceHistory, metrics_performanceHistory,
      filter_insert_false _ _ _ _ hpc]
  exact ApiMetrics.ext hTI hTO hCW hCR hCO hCT hTD hRC hAVG hRP hRM hDP hDM hPH

/-- Inserting an API-request-start message whose payload is valid JSON but
neither an object nor `null`: every component is unchanged except
`requestCount`, which grows by one (and `averageDuration`, which is
derived from `requestCount`). -/
theorem getApiMetrics_nonObj_insert (ms1 ms2 : List ClineMessage)
    (m : ClineMessage) (hA : isApiReqStarted m = true)
    (hn : nonObjPayload m = true) :
    (getApiMetrics (ms1 ++ m :: ms2)).totalTokensIn
        = (getApiMetrics (ms1 ++ ms2)).totalTokensIn
    ∧ (getApiMetrics (ms1 ++ m :: ms2)).totalTokensOut
        = (getApiMetrics (ms1 ++ ms2)).totalTokensOut
    ∧ (getApiMetrics (ms1 ++ m :: ms2)).totalCacheWrites
        = (getApiMetrics (ms1 ++ ms2)).totalCacheWrites
    ∧ (getApiMetrics (ms1 ++ m :: ms2)).totalCacheReads
        = (getApiMetrics (ms1 ++ ms2)).totalCacheReads
    ∧ (getApiMetrics (ms1 ++ m :: ms2)).totalCost
        = (getApiMetrics (ms1 ++ ms2)).totalCost
    ∧ (getApiMetrics (ms1 ++ m :: ms2)).contextTokens
        = (getApiMetrics (ms1 ++ ms2)).contextTokens
    ∧ (getApiMetrics (ms1 ++ m :: ms2)).totalDuration
        = (getApiMetrics (ms1 ++ ms2)).totalDuration
    ∧ (getApiMetrics (ms1 ++ m :: ms2)).performanceHistory
        = (getApiMetrics (ms1 ++ ms2)).performanceHistory
    ∧ (getApiMetrics (ms1 ++ m :: ms2)).requestsByProvider
        = (getApiMetrics (ms1 ++ ms2)).requestsByProvider
    ∧ (getApiMetrics (ms1 ++ m :: ms2)).requestsByModel
        = (getApiMetrics (ms1 ++ ms2)).requestsByModel
    ∧ (getApiMetrics (ms1 ++ m :: ms2)).durationByProvider
        = (getApiMetrics (ms1 ++ ms2)).durationByProvider
    ∧ (getApiMetrics (ms1 ++ m :: ms2)).durationByModel
        = (getApiMetrics (ms1 ++ ms2)).durationByModel
    ∧ (getApiMetrics (ms1 ++ m :: ms2)).requestCount
        = (getApiMetrics (ms1 ++ ms2)).requestCount + 1 := by
  have hcB : countedB m = true := by rw [nonObj_counted m hn]; exact hA
  have hq : qualifies m = false := nonObj_qualifies m hn
  have hpc : posCounted m = false := by
    unfold posCounted
    rw [nonObj_derived m hn, hcB]
    simp
  have hcn : ∀ k, contribNum m k = 0 := by
    intro k
    unfold contribNum
    rw [hcB, nonObj_payloadField m hn k]
    rfl
  have hcf : ∀ k, cacheField k m = none := by
    intro k
    unfold cacheField
    rw [hcB, nonObj_payloadField m hn k]
    rfl
  have hmp : ∀ k w, mapPair k w m = none := by
    intro k w; unfold mapPair; rw [hpc]; rfl
  refine ⟨?_, ?_, ?_, ?_, ?_, ?_, ?_, ?_, ?_, ?_, ?_, ?_, ?_⟩
  · rw [metrics_totalTokensIn, metrics_totalTokensIn]
    exact map_sum_insert _ _ _ _ (hcn _)
  · rw [metrics_totalTokensOut, metrics_totalTokensOut]
    exact map_sum_insert _ _ _ _ (hcn _)
  · rw [metrics_totalCacheWrites, metrics_totalCacheWrites,
      cacheList_eq, cacheList_eq, filterMap_insert_none _ _ _ _ (hcf _)]
  · rw [metrics_totalCacheReads, metrics_totalCacheReads,
      cacheList_eq, cacheList_eq, filterMap_insert_none _ _ _ _ (hcf _)]
  · rw [metrics_totalCost, metrics_totalCost]
    exact map_sum_insert _ _ _ _ (hcn _)
  · rw [metrics_contextTokens, metrics_contextTokens,
      lastQualMsg_insert m hq ms1 ms2]
  · rw [metrics_totalDuration, metrics_totalDuration,
      filter_insert_false _ _ _ _ hpc]
  · rw [metrics_performanceHistory, metrics_performanceHistory,
      filter_insert_false _ _ _ _ hpc]
  · rw [metrics_requestsByProvider, metrics_requestsByProvider,
      filterMap_insert_none _ _ _ _ (hmp _ _)]
  · rw [metrics_requestsByModel, metrics_requestsByModel,
      filterMap_insert_none _ _ _ _ (hmp _ _)]
  · rw [metrics_durationByProvider, metrics_durationByProvider,
      filterMap_insert_none _ _ _ _ (hmp _ _)]
  · rw [metrics_durationByModel, metrics_durationByModel,
      filterMap_insert_none _ _ _ _ (hmp _ _)]
  · rw [metrics_requestCount, metrics_requestCount]
    simp only [List.filter_append, List.filter_cons, hcB, if_true,
      List.length_append, List.length_cons]
    omega

/-!  ## Concrete example messages  -/

/-- The specification's Scenario 1 message. -/
def exScenario1 : ClineMessage :=
  ⟨"say", some "api_req_started", 1000, some (.parsed (.jobj
    [("tokensIn", .jnum 10), ("tokensOut", .jnum 20), ("cost", .jnum (5 / 1000)),
     ("duration", .jnum 150), ("provider", .jstr "openai"),
     ("modelId", .jstr "gpt-4")]))⟩

/-- An API-request-start message whose payload text is the valid JSON
document `null`. -/
def exNullPayload : ClineMessage :=
  ⟨"say", some "api_req_started", 1000, some (.parsed .jnull)⟩

/-- An API-request-start message whose payload text is the valid JSON
document `5` (a non-object value). -/
def exNumPayload : ClineMessage :=
  ⟨"say", some "api_req_started", 1000, some (.parsed (.jnum 5))⟩

/-- An API-request-start message carrying only a duration. -/
def exDurOnly : ClineMessage :=
  ⟨"say", some "api_req_started", 1000, some (.parsed (.jobj
    [("duration", .jnum 150)]))⟩

/-- An API-request-start message carrying only a cache-write count. -/
def exCacheOnly : ClineMessage :=
  ⟨"say", some "api_req_started", 1000, some (.parsed (.jobj
    [("cacheWrites", .jnum 7)]))⟩

/-- The claim-side notion of a JSON-parsable payload: non-empty text on
which `JSON.parse` succeeds, whatever value it returns. -/
def jsonParsable (m : ClineMessage) : Bool :=
  match m.text with
  | some (.parsed _) => true
  | _ => false

/-!  ## The claims  -/

/-- C1: for every input sequence, `contextTokens` equals
`getTotalTokensFromMessage` (the combined-token helper) of the
positionally last event that is tagged as an API-request-start and has
combined tokens greater than zero (per the code's own `> 0` test); if no
such event exists, `contextTokens` is `0`. -/
theorem C1_contextTokens_last_qualifying (ms : List ClineMessage) :
    ((∀ i, (h : i < ms.length) → qualifies (ms.get ⟨i, h⟩) = false)
      ∧ (getApiMetrics ms).contextTokens = .jnum 0)
    ∨ (∃ i, ∃ h : i < ms.length,
        qualifies (ms.get ⟨i, h⟩) = true
        ∧ (∀ k, (hk : k < ms.length) → i < k → qualifies (ms.get ⟨k, hk⟩) = false)
        ∧ (getApiMetrics ms).contextTokens
            = getTotalTokensFromMessage (ms.get ⟨i, h⟩)) := by
  cases hL : lastQualIdx ms with
  | none =>
    left
    constructor
    · intro i h
      exact lastQualIdxAux_none ms 0 hL _ (List.get_mem ms i h)
    · rw [metrics_contextTokens, (lastQualIdxAux_none_iff ms 0).mp hL]
  | some j =>
    right
    obtain ⟨hij, hlt, hmsg, hq, hmax⟩ := lastQualIdxAux_some ms 0 j hL
    refine ⟨j, hlt, hq, ?_, ?_⟩
    · intro k hk hjk
      exact hmax k hk hjk
    · rw [metrics_contextTokens, hmsg]
      rfl

/-- C1 witness: on the empty sequence no event qualifies, and the theorem
yields `contextTokens = 0`. -/
theorem C1_witness : (getApiMetrics []).contextTokens = .jnum 0 := by
  rcases C1_contextTokens_last_qualifying [] with ⟨_, hctx⟩ | ⟨i, hi, _⟩
  · exact hctx
  · exact absurd hi (Nat.not_lt_zero i)

/-- C2 counterexample: the payload text `null` is JSON-parsable (to the
non-object value `null`), yet the event is not counted: destructuring
`null` throws, the error is caught, and `requestCount` stays `0`, while
the claim demands `1`. -/
theorem C2_counterexample :
    jsonParsable exNullPayload = true
    ∧ (getApiMetrics [exNullPayload]).requestCount
        ≠ ([exNullPayload].filter
            (fun m => isApiReqStarted m && jsonParsable m)).length := by
  refine ⟨rfl, ?_⟩
  rw [metrics_requestCount]
  decide

/-- C2 amended: `requestCount` equals the number of API-request-start
events whose payload text parses as JSON to a value other than `null`
(`countedB`); a `null` payload throws on destructuring and is skipped
like a parse failure. -/
theorem C2_requestCount (ms : List ClineMessage) :
    (getApiMetrics ms).requestCount = (ms.filter countedB).length :=
  metrics_requestCount ms

/-- C3: `totalDuration` is the sum of the derived `requestDuration` over
exactly the API-request-start events with strictly positive derived
duration (`posB`); those events alone populate `performanceHistory` and
the two duration maps, while `requestCount` still counts every processed
event regardless of duration. -/
theorem C3_duration_accounting (ms : List ClineMessage) :
    (getApiMetrics ms).totalDuration = ((ms.filter posB).map derivedDuration).sum
    ∧ (getApiMetrics ms).performanceHistory = (ms.filter posB).map entryOf
    ∧ (getApiMetrics ms).durationByProvider
        = buildMap (ms.filterMap (mapPair "provider" derivedDuration))
    ∧ (getApiMetrics ms).durationByModel
        = buildMap (ms.filterMap (mapPair "modelId" derivedDuration))
    ∧ (getApiMetrics ms).requestCount = (ms.filter countedB).length := by
  have hf : ms.filter posB = ms.filter posCounted :=
    List.filter_congr (fun m _ => posB_eq_posCounted m)
  exact ⟨by rw [metrics_totalDuration, hf],
    by rw [metrics_performanceHistory, hf],
    metrics_durationByProvider ms,
    metrics_durationByModel ms,
    metrics_requestCount ms⟩

/-- C4 counterexample: a payload that is valid JSON but not an object (the
document `5`) does not contribute zero to every total: it increments
`requestCount`. -/
theorem C4_counterexample :
    nonObjPayload exNumPayload = true
    ∧ (getApiMetrics [exNumPayload]).requestCount
        ≠ (getApiMetrics []).requestCount := by
  refine ⟨rfl, ?_⟩
  rw [metrics_requestCount, metrics_requestCount]
  decide

/-- C4 amended: an API-request-start event whose payload is missing,
malformed, or parses to `null` is tolerated and contributes nothing at
all (the summary is unchanged); one whose payload parses to a non-object,
non-`null` value is also tolerated and contributes nothing to any total,
map or history except `requestCount`, which it increments (and thereby
the denominator of `averageDuration`).  In either case no error reaches
the caller. -/
theorem C4_payload_tolerance :
    (∀ (ms1 ms2 : List ClineMessage) (m : ClineMessage),
      isApiReqStarted m = true → skipPayload m = true →
      getApiMetrics (ms1 ++ m :: ms2) = getApiMetrics (ms1 ++ ms2))
    ∧ (∀ (ms1 ms2 : List ClineMessage) (m : ClineMessage),
      isApiReqStarted m = true → nonObjPayload m = true →
      (getApiMetrics (ms1 ++ m :: ms2)).totalTokensIn
          = (getApiMetrics (ms1 ++ ms2)).totalTokensIn
      ∧ (getApiMetrics (ms1 ++ m :: ms2)).totalTokensOut
          = (getApiMetrics (ms1 ++ ms2)).totalTokensOut
      ∧ (getApiMetrics (ms1 ++ m :: ms2)).totalCacheWrites
          = (getApiMetrics (ms1 ++ ms2)).totalCacheWrites
      ∧ (getApiMetrics (ms1 ++ m :: ms2)).totalCacheReads
          = (getApiMetrics (ms1 ++ ms2)).totalCacheReads
      ∧ (getApiMetrics (ms1 ++ m :: ms2)).totalCost
          = (getApiMetrics (ms1 ++ ms2)).totalCost
      ∧ (getApiMetrics (ms1 ++ m :: ms2)).contextTokens
          = (getApiMetrics (ms1 ++ ms2)).contextTokens
      ∧ (getApiMetrics (ms1 ++ m :: ms2)).totalDuration
          = (getApiMetrics (ms1 ++ ms2)).totalDuration
      ∧ (getApiMetrics (ms1 ++ m :: ms2)).performanceHistory
          = (getApiMetrics (ms1 ++ ms2)).performanceHistory
      ∧ (getApiMetrics (ms1 ++ m :: ms2)).requestsByProvider
          = (getApiMetrics (ms1 ++ ms2)).requestsByProvider
      ∧ (getApiMetrics (ms1 ++ m :: ms2)).requestsByModel
          = (getApiMetrics (ms1 ++ ms2)).requestsByModel
      ∧ (getApiMetrics (ms1 ++ m :: ms2)).durationByProvider
          = (getApiMetrics (ms1 ++ ms2)).durationByProvider
      ∧ (getApiMetrics (ms1 ++ m :: ms2)).durationByModel
          = (getApiMetrics (ms1 ++ ms2)).durationByModel
      ∧ (getApiMetrics (ms1 ++ m :: ms2)).requestCount
          = (getApiMetrics (ms1 ++ ms2)).requestCount + 1) :=
  ⟨fun ms1 ms2 m _ hs => getApiMetrics_skip_insert ms1 ms2 m hs,
   fun ms1 ms2 m hA hn => getApiMetrics_nonObj_insert ms1 ms2 m hA hn⟩

/-- C4 witness: a `null`-payload event leaves the summary unchanged, and a
number-payload event adds exactly one to `requestCount`. -/
theorem C4_witness :
    getApiMetrics [exNullPayload] = getApiMetrics []
    ∧ (getApiMetrics [exNumPayload]).requestCount
        = (getApiMetrics []).requestCount + 1 := by
  constructor
  · exact C4_payload_tolerance.1 [] [] exNullPayload rfl rfl
  · exact (C4_payload_tolerance.2 [] [] exNumPayload rfl
      rfl).2.2.2.2.2.2.2.2.2.2.2.2

/-- C5 counterexample: an event with a positive duration but no `tokensIn`
field produces a `performanceHistory` entry whose `tokensIn` is absent
(`undefined`), not a numeric `0` — the source pushes the destructured
field unchanged, and the interface declares it optional. -/
theorem C5_counterexample :
    ((getApiMetrics [exDurOnly]).performanceHistory.map PerfEntry.tokensIn)
      = [none] := by
  rw [metrics_performanceHistory]
  rfl

/-- C5 amended: every top-level numeric field of the summary is present
and initialized to `0` (`totalCacheWrites`/`totalCacheReads` alone start
absent), but the `tokensIn`/`tokensOut`/`provider`/`modelId` fields of a
`performanceHistory` entry mirror the payload and are absent whenever the
payload omitted them (`entryOf` copies the payload fields verbatim). -/
theorem C5_defaults :
    getApiMetrics [] = ⟨0, 0, none, none, 0, .jnum 0, 0, 0, 0, [], [], [], [], []⟩
    ∧ ∀ ms : List ClineMessage,
        (getApiMetrics ms).performanceHistory = (ms.filter posB).map entryOf := by
  refine ⟨rfl, ?_⟩
  intro ms
  rw [metrics_performanceHistory,
    List.filter_congr (fun m _ => posB_eq_posCounted m)]

/-- C6: the aggregator never throws: the exception-transparent run
(`getApiMetricsE`, in which an uncaught exception would surface as
`.error`) always returns `.ok` with the summary record, for every input
sequence (empty, no qualifying events, or all payloads failing to
parse). -/
theorem C6_no_throw (ms : List ClineMessage) :
    getApiMetricsE ms = Except.ok (getApiMetrics ms) := by
  unfold getApiMetricsE getApiMetrics
  rw [runFromE_eq]

theorem cache_ite_spec (l : List ℚ) :
    ((if l.isEmpty then (none : Option ℚ) else some l.sum) = none ↔ l = [])
    ∧ (l ≠ [] → (if l.isEmpty then (none : Option ℚ) else some l.sum)
        = some l.sum) := by
  cases l with
  | nil => simp
  | cons a t => simp

/-- C7: `totalCacheWrites` (and symmetrically `totalCacheReads`) is absent
exactly when no processed API-request-start event carried a numeric value
for the field, and otherwise equals the sum of all numeric occurrences
(`cacheList` collects them in order; the first occurrence creates the
field). -/
theorem C7_cache_accumulators (ms : List ClineMessage) :
    ((getApiMetrics ms).totalCacheWrites = none ↔ cacheList "cacheWrites" ms = [])
    ∧ (cacheList "cacheWrites" ms ≠ [] →
        (getApiMetrics ms).totalCacheWrites
          = some ((cacheList "cacheWrites" ms).sum))
    ∧ ((getApiMetrics ms).totalCacheReads = none ↔ cacheList "cacheReads" ms = [])
    ∧ (cacheList "cacheReads" ms ≠ [] →
        (getApiMetrics ms).totalCacheReads
          = some ((cacheList "cacheReads" ms).sum)) := by
  rw [metrics_totalCacheWrites, metrics_totalCacheReads]
  exact ⟨(cache_ite_spec _).1, (cache_ite_spec _).2,
    (cache_ite_spec _).1, (cache_ite_spec _).2⟩

/-- C7 witness: one event with `cacheWrites: 7` makes `totalCacheWrites`
present (the sum of its occurrences) while `totalCacheReads` stays
absent. -/
theorem C7_witness :
    (getApiMetrics [exCacheOnly]).totalCacheWrites
        = some ((cacheList "cacheWrites" [exCacheOnly]).sum)
    ∧ (getApiMetrics [exCacheOnly]).totalCacheReads = none := by
  constructor
  · exact (C7_cache_accumulators [exCacheOnly]).2.1 (by
      intro hx
      rw [show cacheList "cacheWrites" [exCacheOnly] = [(7 : ℚ)] from rfl] at hx
      cases hx)
  · exact ((C7_cache_accumulators [exCacheOnly]).2.2.1).mpr rfl

/-- C8: `averageDuration` equals `totalDuration / requestCount` exactly
when both `requestCount` and `totalDuration` are strictly positive, and is
`0` otherwise. -/
theorem C8_averageDuration (ms : List ClineMessage) :
    (getApiMetrics ms).averageDuration
      = if 0 < (getApiMetrics ms).requestCount
            ∧ 0 < (getApiMetrics ms).totalDuration
        then (getApiMetrics ms).totalDuration
              / ((getApiMetrics ms).requestCount : ℚ)
        else 0 :=
  metrics_averageDuration ms

/-- C9: the aggregator is a pure function of the input sequence: equal
inputs give identical summary records (in the embedding it reads no state
besides its argument). -/
theorem C9_deterministic (ms1 ms2 : List ClineMessage) (h : ms1 = ms2) :
    getApiMetrics ms1 = getApiMetrics ms2 := by rw [h]

/-- C9 witness: two invocations on the same concrete sequence agree. -/
theorem C9_witness : getApiMetrics [] = getApiMetrics [] :=
  C9_deterministic [] [] rfl

/-- C10: `requestsByProvider` and `durationByProvider` always carry the
same keys in the same order, with every request count at least `1` and
every accumulated duration strictly positive; the same invariant holds
for the model-keyed maps. -/
theorem C10_map_invariants (ms : List ClineMessage) :
    ((getApiMetrics ms).requestsByProvider.map Prod.fst
        = (getApiMetrics ms).durationByProvider.map Prod.fst)
    ∧ (∀ p ∈ (getApiMetrics ms).requestsByProvider, 1 ≤ p.2)
    ∧ (∀ p ∈ (getApiMetrics ms).durationByProvider, 0 < p.2)
    ∧ ((getApiMetrics ms).requestsByModel.map Prod.fst
        = (getApiMetrics ms).durationByModel.map Prod.fst)
    ∧ (∀ p ∈ (getApiMetrics ms).requestsByModel, 1 ≤ p.2)
    ∧ (∀ p ∈ (getApiMetrics ms).durationByModel, 0 < p.2) := by
  rw [metrics_requestsByProvider, metrics_durationByProvider,
    metrics_requestsByModel, metrics_durationByModel]
  refine ⟨?_, ?_, ?_, ?_, ?_, ?_⟩
  · exact buildMap_keys_congr _ _
      (mapPair_fst_congr "provider" (fun _ => 1) derivedDuration ms)
  · exact buildMap_pres (fun v => 1 ≤ v) (fun a b ha hb => by linarith) _
      (mapPair_snd (fun v => 1 ≤ v) "provider" (fun _ => 1)
        (fun m _ => le_refl 1) ms)
  · exact buildMap_pres (fun v => 0 < v) (fun a b ha hb => by linarith) _
      (mapPair_snd (fun v => 0 < v) "provider" derivedDuration
        (fun m hm => by
          unfold posCounted at hm
          simp only [Bool.and_eq_true, decide_eq_true_eq] at hm
          exact hm.2) ms)
  · exact buildMap_keys_congr _ _
      (mapPair_fst_congr "modelId" (fun _ => 1) derivedDuration ms)
  · exact buildMap_pres (fun v => 1 ≤ v) (fun a b ha hb => by linarith) _
      (mapPair_snd (fun v => 1 ≤ v) "modelId" (fun _ => 1)
        (fun m _ => le_refl 1) ms)
  · exact buildMap_pres (fun v => 0 < v) (fun a b ha hb => by linarith) _
      (mapPair_snd (fun v => 0 < v) "modelId" derivedDuration
        (fun m hm => by
          unfold posCounted at hm
          simp only [Bool.and_eq_true, decide_eq_true_eq] at hm
          exact hm.2) ms)

/-- C10 witness: on the Scenario 1 input the provider maps carry the same
key list. -/
theorem C10_witness :
    (getApiMetrics [exScenario1]).requestsByProvider.map Prod.fst
      = (getApiMetrics [exScenario1]).durationByProvider.map Prod.fst :=
  (C10_map_invariants [exScenario1]).1
